import Mathlib

/-!
Verification of the mayara-gui radar viewer (src/viewer.js) against its
natural-language specification.

The JavaScript is shallowly embedded: JS numbers are modelled as exact
rational values represented by an explicit numerator/denominator pair
(`JQ`) whose operations the Lean kernel can evaluate; stateful parts of
viewer.js (the readiness gate, the spoke-stream session, the no-transmit
zone tracker) become explicit state-passing functions; the `try`/`catch`
in the websocket handler becomes `Except`.  All definitions are
translated from src/viewer.js; definitions whose name contains `Claim`
or `Amended` restate a spec sentence and exist only to be compared with
the source translation.
-/

/-- A JavaScript number value, modelled as the exact rational `n / d`.
The representation is not normalised (no gcd), so that every arithmetic
operation is kernel-computable.  All operations keep `d` nonnegative
when applied to values with positive denominators; `d = 0` can only
arise from division by zero, which does not occur in the code paths
modelled here (the legend generator, where `0/0` does occur, uses the
NaN-aware wrapper `JSNum` instead). -/
structure JQ where
  n : ℤ
  d : ℤ
deriving DecidableEq

/-- Build a `JQ` with a nonnegative denominator. -/
def JQ.mk' (a b : ℤ) : JQ := if b < 0 then ⟨-a, -b⟩ else ⟨a, b⟩

instance : OfNat JQ m := ⟨⟨(m : ℤ), 1⟩⟩

/-- Embed an integer. -/
def JQ.ofInt (k : ℤ) : JQ := ⟨k, 1⟩

def JQ.add (x y : JQ) : JQ := ⟨x.n * y.d + y.n * x.d, x.d * y.d⟩

def JQ.sub (x y : JQ) : JQ := ⟨x.n * y.d - y.n * x.d, x.d * y.d⟩

def JQ.mul (x y : JQ) : JQ := ⟨x.n * y.n, x.d * y.d⟩

def JQ.div (x y : JQ) : JQ := JQ.mk' (x.n * y.d) (x.d * y.n)

def JQ.neg (x : JQ) : JQ := ⟨-x.n, x.d⟩

/-- JS `Math.abs` (correct for denominators `≥ 0`). -/
def JQ.abs (x : JQ) : JQ := ⟨|x.n|, x.d⟩

/-- Strict `<` by cross-multiplication. -/
def JQ.ltb (x y : JQ) : Bool := x.n * y.d < y.n * x.d

/-- Nonstrict `≤` by cross-multiplication. -/
def JQ.leb (x y : JQ) : Bool := x.n * y.d ≤ y.n * x.d

/-- Value equality (`===` in JS) by cross-multiplication. -/
def JQ.beq (x y : JQ) : Bool := x.n * y.d = y.n * x.d

def JQ.isZero (x : JQ) : Bool := x.n = 0

instance : Add JQ := ⟨JQ.add⟩
instance : Sub JQ := ⟨JQ.sub⟩
instance : Mul JQ := ⟨JQ.mul⟩
instance : Div JQ := ⟨JQ.div⟩

/-- JS `Math.floor` (for denominators `> 0`). -/
def JQ.floor (x : JQ) : ℤ := Int.fdiv x.n x.d

/-- Truncation toward zero, the rounding JS uses for `%`. -/
def JQ.trunc (x : JQ) : ℤ := Int.tdiv x.n x.d

/-- JS `Math.round`: round half toward positive infinity. -/
def jsRound (x : JQ) : ℤ := (x + ⟨1, 2⟩).floor

/-- JS `%` (remainder with the sign of the dividend):
`a % b = a - b * trunc(a / b)`. -/
def jsMod (a b : JQ) : JQ := a - b * JQ.ofInt (JQ.trunc (a / b))

/-- Decimal expansion of a fractional part in `[0,1)`, fuel-bounded.
Terminating expansions of up to 20 digits (the only ones the verified
claims evaluate) are produced exactly, matching the JS number-to-string
conversion; longer ones are truncated. -/
def fracDigits : ℕ → JQ → String
  | 0, _ => ""
  | fuel + 1, q =>
    let y := q * 10
    let dgt := y.floor
    let rest := y - JQ.ofInt dgt
    String.singleton (Nat.digitChar dgt.toNat) ++
      (if rest.isZero then "" else fracDigits fuel rest)

/-- JS number-to-string conversion for a nonnegative value. -/
def jsNumStrNN (x : JQ) : String :=
  let ip := x.floor
  let frac := x - JQ.ofInt ip
  if frac.isZero then toString ip else toString ip ++ "." ++ fracDigits 20 frac

/-- JS number-to-string conversion (`v + ""`): integers print without a
decimal point, other values print their decimal expansion. -/
def jsNumStr (x : JQ) : String :=
  if JQ.ltb x 0 then "-" ++ jsNumStrNN x.neg else jsNumStrNN x

/-- JS `toFixed(1)` for nonnegative values. -/
def toFixed1 (x : JQ) : String :=
  let t := (jsRound (x * 10)).toNat
  toString (t / 10) ++ "." ++ toString (t % 10)

/-- JS `toFixed(2)` for nonnegative values. -/
def toFixed2 (x : JQ) : String :=
  let t := (jsRound (x * 100)).toNat
  toString (t / 100) ++ "." ++
    (if t % 100 < 10 then "0" ++ toString (t % 100) else toString (t % 100))

/-! ## Unit formatter (src/viewer.js lines 30-129) -/

/-- `const NAUTICAL_MILE = 1852.0` (viewer.js line 30). -/
def NAUTICAL_MILE : JQ := 1852

/-- `divides_near` (viewer.js lines 33-36):
`remainder <= 1.0 || remainder >= b - 1` with `remainder = a % b`. -/
def divides_near (a b : JQ) : Bool :=
  JQ.leb (jsMod a b) 1 || JQ.leb (b - 1) (jsMod a b)

/-- `is_metric` (viewer.js lines 38-45). -/
def is_metric (v : JQ) : Bool :=
  if JQ.leb v 100 then divides_near v 25
  else if JQ.leb v 750 then divides_near v 50
  else divides_near v 500

/-- Rendering of a half-nm-rounded value (viewer.js lines 104-109):
`rounded = Math.round(nm * 2) / 2`; print it bare if it is an integer,
else with `toFixed(1)`. -/
def halfNmString (nm : JQ) : String :=
  let rounded := JQ.ofInt (jsRound (nm * 2)) / 2
  if JQ.beq rounded (JQ.ofInt rounded.floor) then jsNumStr rounded ++ " nm"
  else toFixed1 rounded ++ " nm"

/-- The `for (const denom of denominators)` loop of `formatRangeNautical`
(viewer.js lines 116-125): accept the first denominator whose rounded
numerator has error below 10% of the fraction size and is positive. -/
def fractionLoop (v : JQ) : List ℤ → Option String
  | [] => none
  | denom :: rest =>
    let fraction := NAUTICAL_MILE / JQ.ofInt denom
    let numerator := jsRound (v / fraction)
    let error := JQ.abs (v - JQ.ofInt numerator * fraction)
    if JQ.ltb error (fraction * ⟨1, 10⟩) && decide (0 < numerator) then
      some (toString numerator ++ "/" ++ toString denom ++ " nm")
    else fractionLoop v rest

/-- `formatRangeNautical` (viewer.js lines 96-129). -/
def formatRangeNautical (v : JQ) : String :=
  if JQ.leb NAUTICAL_MILE v then
    let nm := v / NAUTICAL_MILE
    if JQ.leb 10 nm then toString (jsRound nm) ++ " nm"
    else halfNmString nm
  else
    match fractionLoop v [128, 64, 32, 16, 8, 4, 2] with
    | some s => s
    | none => toFixed2 (v / NAUTICAL_MILE) ++ " nm"

/-- `formatRangeValue` (viewer.js lines 47-94).  The input is rounded to
the nearest whole meter first; Navico uses meters below 1000 m and the
nautical sub-formatter above; all other brands use the original
`divides_near` chain. -/
def formatRangeValue (brand : String) (v : JQ) : String :=
  let w := jsRound v
  let ws := JQ.ofInt w
  if brand == "Navico" then
    if w < 1000 then toString w ++ " m" else formatRangeNautical ws
  else
    if is_metric ws then
      if JQ.leb 1000 ws then jsNumStr (ws / 1000) ++ " km"
      else toString w ++ " m"
    else
      if JQ.leb (NAUTICAL_MILE - 1) ws then
        if divides_near ws NAUTICAL_MILE then
          toString ((ws + 1) / NAUTICAL_MILE).floor ++ " nm"
        else jsNumStr (ws / NAUTICAL_MILE) ++ " nm"
      else if divides_near ws (NAUTICAL_MILE / 2) then
        toString ((ws + 1) / (NAUTICAL_MILE / 2)).floor ++ "/2 nm"
      else if divides_near ws (NAUTICAL_MILE / 4) then
        toString ((ws + 1) / (NAUTICAL_MILE / 4)).floor ++ "/4 nm"
      else if divides_near ws (NAUTICAL_MILE / 8) then
        toString ((ws + 1) / (NAUTICAL_MILE / 8)).floor ++ "/8 nm"
      else if divides_near ws (NAUTICAL_MILE / 16) then
        toString ((ws + 1) / (NAUTICAL_MILE / 16)).floor ++ "/16 nm"
      else if divides_near ws (NAUTICAL_MILE / 32) then
        toString ((ws + 1) / (NAUTICAL_MILE / 32)).floor ++ "/32 nm"
      else if divides_near ws (NAUTICAL_MILE / 64) then
        toString ((ws + 1) / (NAUTICAL_MILE / 64)).floor ++ "/64 nm"
      else if divides_near ws (NAUTICAL_MILE / 128) then
        toString ((ws + 1) / (NAUTICAL_MILE / 128)).floor ++ "/128 nm"
      else jsNumStr (ws / NAUTICAL_MILE) ++ " nm"

example : formatRangeValue "Navico" 500 = "500 m" := by decide
example : formatRangeValue "Navico" 1852 = "1 nm" := by decide
example : formatRangeNautical 926 = "64/128 nm" := by decide
example : formatRangeNautical (JQ.mk' 463 2) = "16/128 nm" := by decide
example : formatRangeValue "Furuno" 500 = "500 m" := by decide
example : formatRangeValue "Furuno" 1000 = "1 km" := by decide
example : formatRangeValue "Furuno" 1852 = "1 nm" := by decide
example : formatRangeValue "Furuno" 2778 = "1.5 nm" := by decide
example : formatRangeValue "Navico" 27780 = "15 nm" := by decide
example : formatRangeValue "Navico" 2778 = "1.5 nm" := by decide
example : formatRangeValue "Navico" 1000 = "1/2 nm" := by decide

/-! ## Spec-side readings of the formatter claims -/

/-- Claim C4 reading of the sub-nm search: the denominators
`[128,64,32,16,8,4,2]` are tested in that order with `findSome?`, and
the first denominator wins whose rounded positive numerator, multiplied
back by `1852/denom`, lies within 10% of `1852/denom` of the input. -/
def navicoFractionFirst (v : JQ) : Option String :=
  [128, 64, 32, 16, 8, 4, 2].findSome? fun denom =>
    let fraction := NAUTICAL_MILE / JQ.ofInt denom
    let numerator := jsRound (v / fraction)
    if JQ.ltb (JQ.abs (v - JQ.ofInt numerator * fraction)) (fraction / 10)
        && decide (0 < numerator) then
      some (toString numerator ++ "/" ++ toString denom ++ " nm")
    else none

/-- Claim C4 reading of the whole Navico formatter. -/
def formatRangeNavicoClaim (v : JQ) : String :=
  let w := jsRound v
  let ws := JQ.ofInt w
  if w < 1000 then toString w ++ " m"
  else if JQ.leb NAUTICAL_MILE ws then
    if JQ.leb 10 (ws / NAUTICAL_MILE) then
      toString (jsRound (ws / NAUTICAL_MILE)) ++ " nm"
    else halfNmString (ws / NAUTICAL_MILE)
  else
    match navicoFractionFirst ws with
    | some s => s
    | none => toFixed2 (ws / NAUTICAL_MILE) ++ " nm"

/-- Claim C5 reading of the metric heuristic, as a single disjunction:
metric iff `v ≤ 100` and near a multiple of 25, or `100 < v ≤ 750` and
near a multiple of 50, or `v > 750` and near a multiple of 500. -/
def isMetricClaim (v : JQ) : Bool :=
  (JQ.leb v 100 && divides_near v 25) ||
  (JQ.ltb 100 v && JQ.leb v 750 && divides_near v 50) ||
  (JQ.ltb 750 v && divides_near v 500)

/-- Rendering of the fraction `⌊(v+1)/(1852/d)⌋ / d` of a nautical mile;
a whole number of miles (`d = 1`) is rendered bare. -/
def nmFractionString (v : JQ) (d : ℤ) : String :=
  if d = 1 then toString ((v + 1) / NAUTICAL_MILE).floor ++ " nm"
  else
    toString ((v + 1) / (NAUTICAL_MILE / JQ.ofInt d)).floor ++ "/" ++
      toString d ++ " nm"

/-- First fraction of the nautical mile, among the given denominators in
order, that the value is near-divisible by. -/
def firstNearFraction (v : JQ) : List ℤ → Option String
  | [] => none
  | d :: rest =>
    if divides_near v (NAUTICAL_MILE / JQ.ofInt d) then
      some (nmFractionString v d)
    else firstNearFraction v rest

/-- Claim C5 reading of the non-Navico formatter, exactly as stated:
metric values render in km/m; nautical values take the first matching
fraction in descending order, whole nm down to 1/128, with a raw
decimal fallback. -/
def formatRangeOtherClaim (v : JQ) : String :=
  let ws := JQ.ofInt (jsRound v)
  if isMetricClaim ws then
    if JQ.leb 1000 ws then jsNumStr (ws / 1000) ++ " km"
    else toString (jsRound v) ++ " m"
  else
    match firstNearFraction ws [1, 2, 4, 8, 16, 32, 64, 128] with
    | some s => s
    | none => jsNumStr (ws / NAUTICAL_MILE) ++ " nm"

/-- Amended claim C5: identical to `formatRangeOtherClaim` except that
the descending fraction search below whole miles applies only to values
under `NAUTICAL_MILE - 1` (1851 m); at or above 1851 m only the
whole-mile test is performed, with the raw decimal fallback. -/
def formatRangeOtherAmended (v : JQ) : String :=
  let ws := JQ.ofInt (jsRound v)
  if isMetricClaim ws then
    if JQ.leb 1000 ws then jsNumStr (ws / 1000) ++ " km"
    else toString (jsRound v) ++ " m"
  else if JQ.leb (NAUTICAL_MILE - 1) ws then
    if divides_near ws NAUTICAL_MILE then nmFractionString ws 1
    else jsNumStr (ws / NAUTICAL_MILE) ++ " nm"
  else
    match firstNearFraction ws [2, 4, 8, 16, 32, 64, 128] with
    | some s => s
    | none => jsNumStr (ws / NAUTICAL_MILE) ++ " nm"

example : formatRangeOtherClaim 2778 = "3/2 nm" := by decide
example : formatRangeOtherAmended 2778 = "1.5 nm" := by decide
example : formatRangeNavicoClaim 926 = "926 m" := by decide
example : formatRangeNavicoClaim 1000 = "1/2 nm" := by decide

/-! ## JQ unfolding lemmas -/

lemma JQ.ofNat_def (m : ℕ) : (OfNat.ofNat m : JQ) = ⟨(m : ℤ), 1⟩ := rfl

lemma JQ.mul_def (x y : JQ) : x * y = ⟨x.n * y.n, x.d * y.d⟩ := rfl

lemma JQ.div_def (x y : JQ) : x / y = JQ.mk' (x.n * y.d) (x.d * y.n) := rfl

lemma JQ.add_def (x y : JQ) : x + y = ⟨x.n * y.d + y.n * x.d, x.d * y.d⟩ := rfl

lemma JQ.sub_def (x y : JQ) : x - y = ⟨x.n * y.d - y.n * x.d, x.d * y.d⟩ := rfl

lemma JQ.ltb_eq_not_leb (x y : JQ) : JQ.ltb x y = !JQ.leb y x := by
  simp only [JQ.ltb, JQ.leb, ← decide_not, decide_eq_decide]
  omega

/-- Multiplying the JS literal `0.10` is the same as dividing by ten for
the fractions `1852/denom` appearing in the sub-nm search. -/
lemma fraction_tenth (d : ℤ) :
    (NAUTICAL_MILE / JQ.ofInt d) * (⟨1, 10⟩ : JQ) =
      (NAUTICAL_MILE / JQ.ofInt d) / 10 := by
  simp only [NAUTICAL_MILE, JQ.ofNat_def, JQ.ofInt, JQ.div_def, JQ.mul_def, JQ.mk']
  split_ifs <;> simp_all <;> omega

lemma fractionLoop_eq_first (u : JQ) (l : List ℤ) :
    fractionLoop u l = l.findSome? (fun denom =>
      let fraction := NAUTICAL_MILE / JQ.ofInt denom
      let numerator := jsRound (u / fraction)
      if JQ.ltb (JQ.abs (u - JQ.ofInt numerator * fraction)) (fraction / 10)
          && decide (0 < numerator) then
        some (toString numerator ++ "/" ++ toString denom ++ " nm")
      else none) := by
  induction l with
  | nil => rfl
  | cons d rest ih =>
    simp only [fractionLoop, List.findSome?_cons, fraction_tenth d]
    cases hC : (JQ.ltb (JQ.abs (u - JQ.ofInt (jsRound
        (u / (NAUTICAL_MILE / JQ.ofInt d))) * (NAUTICAL_MILE / JQ.ofInt d)))
        ((NAUTICAL_MILE / JQ.ofInt d) / 10)
        && decide (0 < jsRound (u / (NAUTICAL_MILE / JQ.ofInt d)))) <;>
      simp [hC, ih]

lemma navicoFractionFirst_eq (u : JQ) :
    navicoFractionFirst u = fractionLoop u [128, 64, 32, 16, 8, 4, 2] := by
  rw [fractionLoop_eq_first]
  rfl

lemma formatRangeNautical_eq_claimBody (u : JQ) :
    formatRangeNautical u =
      if JQ.leb NAUTICAL_MILE u then
        if JQ.leb 10 (u / NAUTICAL_MILE) then
          toString (jsRound (u / NAUTICAL_MILE)) ++ " nm"
        else halfNmString (u / NAUTICAL_MILE)
      else
        match navicoFractionFirst u with
        | some s => s
        | none => toFixed2 (u / NAUTICAL_MILE) ++ " nm" := by
  rw [navicoFractionFirst_eq]
  rfl

/-- C4: for brand Navico, `formatRangeValue` behaves exactly as the
claim describes: round to whole meters; below 1000 m print meters;
otherwise at ≥ 10 nm print whole miles, between 1 and 10 nm print the
nearest half-mile, and below one mile search the denominators
`[128,64,32,16,8,4,2]` in order for the first fraction whose rounded
positive numerator lands within 10% of `1852/denom` of the input,
falling back to a two-decimal value. -/
theorem navico_format_matches_claim (v : JQ) :
    formatRangeValue "Navico" v = formatRangeNavicoClaim v := by
  unfold formatRangeValue formatRangeNavicoClaim
  simp only [beq_self_eq_true, if_true]
  split
  · rfl
  · exact formatRangeNautical_eq_claimBody _

lemma is_metric_eq (v : JQ) (hv : 0 < v.d) : is_metric v = isMetricClaim v := by
  unfold is_metric isMetricClaim
  have h1 : JQ.ltb 100 v = !JQ.leb v 100 := JQ.ltb_eq_not_leb _ _
  have h2 : JQ.ltb 750 v = !JQ.leb v 750 := JQ.ltb_eq_not_leb _ _
  have himp : JQ.leb v 100 = true → JQ.leb v 750 = true := by
    simp only [JQ.leb, JQ.ofNat_def, decide_eq_true_eq]
    intro h
    omega
  by_cases hA : JQ.leb v 100 = true <;> by_cases hB : JQ.leb v 750 = true <;>
    simp_all

lemma stringNmShift (s t : String) :
    ((s ++ "/") ++ t) ++ " nm" = s ++ ("/" ++ (t ++ " nm")) := by
  rw [String.append_assoc, String.append_assoc]

lemma firstNearFraction_chain (u : JQ) :
    (match firstNearFraction u [2, 4, 8, 16, 32, 64, 128] with
     | some s => s
     | none => jsNumStr (u / NAUTICAL_MILE) ++ " nm") =
    (if divides_near u (NAUTICAL_MILE / 2) then
      toString ((u + 1) / (NAUTICAL_MILE / 2)).floor ++ "/2 nm"
    else if divides_near u (NAUTICAL_MILE / 4) then
      toString ((u + 1) / (NAUTICAL_MILE / 4)).floor ++ "/4 nm"
    else if divides_near u (NAUTICAL_MILE / 8) then
      toString ((u + 1) / (NAUTICAL_MILE / 8)).floor ++ "/8 nm"
    else if divides_near u (NAUTICAL_MILE / 16) then
      toString ((u + 1) / (NAUTICAL_MILE / 16)).floor ++ "/16 nm"
    else if divides_near u (NAUTICAL_MILE / 32) then
      toString ((u + 1) / (NAUTICAL_MILE / 32)).floor ++ "/32 nm"
    else if divides_near u (NAUTICAL_MILE / 64) then
      toString ((u + 1) / (NAUTICAL_MILE / 64)).floor ++ "/64 nm"
    else if divides_near u (NAUTICAL_MILE / 128) then
      toString ((u + 1) / (NAUTICAL_MILE / 128)).floor ++ "/128 nm"
    else jsNumStr (u / NAUTICAL_MILE) ++ " nm") := by
  have hcast : ∀ m : ℕ, JQ.ofInt ((OfNat.ofNat m : ℤ)) = (OfNat.ofNat m : JQ) :=
    fun m => rfl
  simp only [firstNearFraction, nmFractionString, hcast]
  norm_num
  split_ifs <;> (try rfl) <;> (rw [stringNmShift]; rfl)

/-- C5 counterexample: at 2778 m (non-metric, 1.5 nautical miles) the
code returns the raw decimal `"1.5 nm"`, while the claimed
descending-fraction search would return `"3/2 nm"`, because the code
only tries fractions below `NAUTICAL_MILE - 1` meters. -/
theorem other_brand_format_counterexample :
    formatRangeValue "Furuno" 2778 = "1.5 nm" ∧
    formatRangeOtherClaim 2778 = "3/2 nm" ∧
    formatRangeValue "Furuno" 2778 ≠ formatRangeOtherClaim 2778 := by
  refine ⟨by decide, by decide, by decide⟩

/-- C5 amended: for every brand other than Navico, `formatRangeValue`
rounds to whole meters, classifies by the `is_metric` divisibility
heuristic (metric iff `v ≤ 100` near a multiple of 25, `100 < v ≤ 750`
near 50, `v > 750` near 500), renders metric values in km at or above
1000 m and in m below, and renders nautical values of at least
`NAUTICAL_MILE - 1` meters as whole miles when near-divisible by 1852
(raw decimal otherwise), while only values below `NAUTICAL_MILE - 1`
search the fractions 1/2 down to 1/128 in descending order with a raw
decimal fallback. -/
theorem other_brand_format_amended (brand : String) (v : JQ)
    (h : brand ≠ "Navico") :
    formatRangeValue brand v = formatRangeOtherAmended v := by
  unfold formatRangeValue formatRangeOtherAmended
  have hb : (brand == "Navico") = false := beq_eq_false_iff_ne.mpr h
  simp only [hb, Bool.false_eq_true, if_false]
  rw [is_metric_eq (JQ.ofInt (jsRound v)) (by simp [JQ.ofInt])]
  split
  · rfl
  · rw [← firstNearFraction_chain]
    split
    · split
      · rfl
      · rfl
    · rfl

/-- C5 witness: the amended equivalence instantiated at brand Furuno
and 500 m, where both sides evaluate to `"500 m"`. -/
theorem other_brand_format_amended_witness :
    formatRangeValue "Furuno" 500 = formatRangeOtherAmended 500 ∧
    formatRangeOtherAmended 500 = "500 m" :=
  ⟨other_brand_format_amended "Furuno" 500 (by decide), by decide⟩

/-- C6: evaluating the nautical sub-formatter at the test inputs named
by the spec.  The finest-first denominator search accepts denominator
128 with zero error, so the code produces the un-reduced fractions
`"64/128 nm"` (for 926 m) and `"16/128 nm"` (for 231.5 m) instead of
the `"1/2 nm"` and `"1/8 nm"` the spec expects. -/
theorem nautical_subformatter_code_bug :
    formatRangeNautical 926 = "64/128 nm" ∧
    formatRangeNautical (JQ.mk' 463 2) = "16/128 nm" ∧
    formatRangeNautical 926 ≠ "1/2 nm" ∧
    formatRangeNautical (JQ.mk' 463 2) ≠ "1/8 nm" :=
  ⟨by decide, by decide, by decide, by decide⟩

/-! ## Color legend generator (src/viewer.js lines 740-793) -/

/-- A JS number including the IEEE special values, as produced by the
legend gradient arithmetic (where `0/0 = NaN` arises for
`pixelValues = 2`). -/
inductive JSNum where
  | nan : JSNum
  | posInf : JSNum
  | negInf : JSNum
  | fin : JQ → JSNum
deriving DecidableEq

def JSNum.sign (q : JQ) : Bool := JQ.ltb 0 q

def JSNum.jadd : JSNum → JSNum → JSNum
  | .nan, _ => .nan
  | _, .nan => .nan
  | .posInf, .negInf => .nan
  | .negInf, .posInf => .nan
  | .posInf, _ => .posInf
  | _, .posInf => .posInf
  | .negInf, _ => .negInf
  | _, .negInf => .negInf
  | .fin a, .fin b => .fin (a + b)

def JSNum.jneg : JSNum → JSNum
  | .nan => .nan
  | .posInf => .negInf
  | .negInf => .posInf
  | .fin a => .fin a.neg

def JSNum.jsub (x y : JSNum) : JSNum := x.jadd y.jneg

def JSNum.jmul : JSNum → JSNum → JSNum
  | .nan, _ => .nan
  | _, .nan => .nan
  | .posInf, .posInf => .posInf
  | .posInf, .negInf => .negInf
  | .negInf, .posInf => .negInf
  | .negInf, .negInf => .posInf
  | .posInf, .fin b => if b.isZero then .nan else if sign b then .posInf else .negInf
  | .fin a, .posInf => if a.isZero then .nan else if sign a then .posInf else .negInf
  | .negInf, .fin b => if b.isZero then .nan else if sign b then .negInf else .posInf
  | .fin a, .negInf => if a.isZero then .nan else if sign a then .negInf else .posInf
  | .fin a, .fin b => .fin (a * b)

def JSNum.jdiv : JSNum → JSNum → JSNum
  | .nan, _ => .nan
  | _, .nan => .nan
  | .posInf, .posInf => .nan
  | .posInf, .negInf => .nan
  | .negInf, .posInf => .nan
  | .negInf, .negInf => .nan
  | .posInf, .fin b => if sign b || b.isZero then .posInf else .negInf
  | .negInf, .fin b => if sign b || b.isZero then .negInf else .posInf
  | .fin _, .posInf => .fin 0
  | .fin _, .negInf => .fin 0
  | .fin a, .fin b =>
    if b.isZero then
      if a.isZero then .nan else if sign a then .posInf else .negInf
    else .fin (a / b)

/-- JS `<`: any comparison against NaN is false. -/
def JSNum.jltb : JSNum → JSNum → Bool
  | .nan, _ => false
  | _, .nan => false
  | .negInf, .negInf => false
  | .negInf, _ => true
  | _, .negInf => false
  | .posInf, _ => false
  | _, .posInf => true
  | .fin a, .fin b => JQ.ltb a b

/-- JS `Math.floor` on the extended numbers: `Math.floor(NaN) = NaN`. -/
def JSNum.jfloor : JSNum → JSNum
  | .nan => .nan
  | .posInf => .posInf
  | .negInf => .negInf
  | .fin a => .fin (JQ.ofInt a.floor)

/-- One RGBA entry of the legend (`legend.push([r, g, b, alpha])`). -/
structure RGBA where
  r : JSNum
  g : JSNum
  b : JSNum
  a : JSNum
deriving DecidableEq

/-- The clamp at the top of `buildMayaraLegend` (viewer.js line 744):
`if (pixelValues < 2) pixelValues = 64`. -/
def clampedPixelValues (pixelValues : JQ) : JQ :=
  if JQ.ltb pixelValues 2 then 64 else pixelValues

/-- The body of the `for (let i = 0; i < 256; i++)` loop of
`buildMayaraLegend` (viewer.js lines 746-791), applied to the already
clamped `pixelValues`: index 0 is transparent black; indices below
`pixelValues` map `t = (i-1)/(pixelValues-2)` onto the four-segment
Blue→Cyan→Green→Yellow→Red gradient; all other indices are saturated
solid red. -/
def buildMayaraLegendEntry (pixelValues : JQ) (i : ℕ) : RGBA :=
  if i = 0 then ⟨.fin 0, .fin 0, .fin 0, .fin 0⟩
  else if JQ.ltb (JQ.ofInt (i : ℤ)) pixelValues then
    let t := JSNum.jdiv (.fin (JQ.ofInt (i : ℤ) - 1)) (.fin (pixelValues - 2))
    if JSNum.jltb t (.fin ⟨1, 4⟩) then
      let lcl := JSNum.jdiv t (.fin ⟨1, 4⟩)
      ⟨.fin 0, JSNum.jfloor (JSNum.jadd (.fin 85) (JSNum.jmul (.fin 170) lcl)),
        .fin 255, .fin 255⟩
    else if JSNum.jltb t (.fin ⟨1, 2⟩) then
      let lcl := JSNum.jdiv (JSNum.jsub t (.fin ⟨1, 4⟩)) (.fin ⟨1, 4⟩)
      ⟨.fin 0, .fin 255,
        JSNum.jfloor (JSNum.jmul (.fin 255) (JSNum.jsub (.fin 1) lcl)), .fin 255⟩
    else if JSNum.jltb t (.fin ⟨3, 4⟩) then
      let lcl := JSNum.jdiv (JSNum.jsub t (.fin ⟨1, 2⟩)) (.fin ⟨1, 4⟩)
      ⟨JSNum.jfloor (JSNum.jmul (.fin 255) lcl), .fin 255, .fin 0, .fin 255⟩
    else
      let lcl := JSNum.jdiv (JSNum.jsub t (.fin ⟨3, 4⟩)) (.fin ⟨1, 4⟩)
      ⟨.fin 255, JSNum.jfloor (JSNum.jmul (.fin 255) (JSNum.jsub (.fin 1) lcl)),
        .fin 0, .fin 255⟩
  else ⟨.fin 255, .fin 0, .fin 0, .fin 255⟩

/-- `buildMayaraLegend` (viewer.js lines 740-793): clamp `pixelValues`,
then emit exactly 256 RGBA entries. -/
def buildMayaraLegend (pixelValues : JQ) : List RGBA :=
  (List.range 256).map (buildMayaraLegendEntry (clampedPixelValues pixelValues))

set_option maxRecDepth 40000 in
example : (buildMayaraLegend 64).length = 256 := by decide
set_option maxRecDepth 40000 in
example : (buildMayaraLegend 64)[0]? = some ⟨.fin 0, .fin 0, .fin 0, .fin 0⟩ := by
  decide
set_option maxRecDepth 40000 in
example : (buildMayaraLegend 64)[63]? = some ⟨.fin 255, .fin 0, .fin 0, .fin 255⟩ := by
  decide
set_option maxRecDepth 40000 in
example : (buildMayaraLegend 16)[200]? = some ⟨.fin 255, .fin 0, .fin 0, .fin 255⟩ := by
  decide
set_option maxRecDepth 40000 in
example :
    (buildMayaraLegend 2)[1]? = some ⟨.fin 255, .nan, .fin 0, .fin 255⟩ := by
  decide

set_option maxRecDepth 40000 in
/-- C7: for every `pixelValues` (any JS number, i.e. any representation
with positive denominator) the legend has exactly 256 entries, entry 0
is fully transparent black, every entry at an index at or above the
(clamped) `pixelValues` is saturated solid red, inputs below 2 behave
exactly like 64, and the three concrete spec values hold. -/
theorem build_legend_spec (pv : JQ) (hv : 0 < pv.d) :
    (buildMayaraLegend pv).length = 256 ∧
    (buildMayaraLegend pv)[0]? = some ⟨.fin 0, .fin 0, .fin 0, .fin 0⟩ ∧
    (∀ i : ℕ, i < 256 →
      JQ.leb (clampedPixelValues pv) (JQ.ofInt (i : ℤ)) = true →
      (buildMayaraLegend pv)[i]? = some ⟨.fin 255, .fin 0, .fin 0, .fin 255⟩) ∧
    (JQ.ltb pv 2 = true → buildMayaraLegend pv = buildMayaraLegend 64) ∧
    (buildMayaraLegend 64)[0]? = some ⟨.fin 0, .fin 0, .fin 0, .fin 0⟩ ∧
    (buildMayaraLegend 64)[63]? = some ⟨.fin 255, .fin 0, .fin 0, .fin 255⟩ ∧
    (buildMayaraLegend 16)[200]? = some ⟨.fin 255, .fin 0, .fin 0, .fin 255⟩ := by
  refine ⟨?_, ?_, ?_, ?_, by decide, by decide, by decide⟩
  · simp [buildMayaraLegend]
  · simp [buildMayaraLegend, List.getElem?_map, List.getElem?_range]
    rfl
  · intro i hi hle
    have hentry : (buildMayaraLegend pv)[i]? =
        some (buildMayaraLegendEntry (clampedPixelValues pv) i) := by
      simp [buildMayaraLegend, List.getElem?_map, List.getElem?_range, hi]
    rw [hentry]
    unfold clampedPixelValues at hle ⊢
    unfold buildMayaraLegendEntry
    by_cases hc : JQ.ltb pv 2 = true
    · rw [if_pos hc] at hle ⊢
      have h64 : (64 : ℤ) ≤ (i : ℤ) := by
        simpa [JQ.leb, JQ.ofNat_def, JQ.ofInt] using hle
      have hi0 : ¬(i = 0) := by omega
      have hlt : JQ.ltb (JQ.ofInt (i : ℤ)) 64 = false := by
        simp only [JQ.ltb, JQ.ofNat_def, JQ.ofInt, mul_one, one_mul,
          decide_eq_false_iff_not]
        omega
      simp [hi0, hlt]
    · rw [if_neg hc] at hle ⊢
      have hpv : 2 * pv.d ≤ pv.n := by
        simp only [JQ.ltb, JQ.ofNat_def, mul_one, one_mul,
          decide_eq_true_eq] at hc
        omega
      have hle' : pv.n ≤ (i : ℤ) * pv.d := by
        simpa [JQ.leb, JQ.ofInt] using hle
      have hi0 : ¬(i = 0) := by
        intro h
        subst h
        simp only [Nat.cast_zero, zero_mul] at hle'
        omega
      have hlt : JQ.ltb (JQ.ofInt (i : ℤ)) pv = false := by
        simp only [JQ.ltb, JQ.ofInt, mul_one, one_mul,
          decide_eq_false_iff_not]
        exact Int.not_lt.mpr hle'
      simp [hi0, hlt]
  · intro h
    have h64 : JQ.ltb (64 : JQ) 2 = false := by decide
    simp [buildMayaraLegend, clampedPixelValues, h, h64]

set_option maxRecDepth 40000 in
/-- C7 witness: the red-overflow clause applied at `pixelValues = 16`,
index 200, together with the length clause. -/
theorem build_legend_spec_witness :
    (buildMayaraLegend 16)[200]? = some ⟨.fin 255, .fin 0, .fin 0, .fin 255⟩ ∧
    (buildMayaraLegend 16).length = 256 := by
  have h := build_legend_spec 16 (by decide)
  exact ⟨h.2.2.1 200 (by decide) (by decide), h.1⟩

set_option maxRecDepth 40000 in
/-- C10 counterexample: at `pixelValues = 2` the gradient divides by
zero at index 1, but the resulting entry is `[255, NaN, 0, 255]` — the
blue channel is the ordinary number 0, not NaN as the claim states. -/
theorem legend_pv2_counterexample :
    ((buildMayaraLegend 2)[1]?).map RGBA.b = some (JSNum.fin 0) ∧
    JSNum.fin 0 ≠ JSNum.nan :=
  ⟨by decide, by decide⟩

set_option maxRecDepth 40000 in
/-- C10 amended: `pixelValues = 2` is indeed not clamped and the
division `0/0` at index 1 produces NaN, but only in the green channel:
the entry is `[255, NaN, 0, 255]`. -/
theorem legend_pv2_amended :
    clampedPixelValues 2 = 2 ∧
    (buildMayaraLegend 2)[1]? = some ⟨.fin 255, .nan, .fin 0, .fin 255⟩ :=
  ⟨by decide, by decide⟩

/-! ## No-transmit zone tracker (src/viewer.js lines 810-849) -/

/-- Substring containment test, the JS `String.prototype.includes`. -/
def containsSeq (needle : List Char) : List Char → Bool
  | [] => needle.isEmpty
  | c :: rest => needle.isPrefixOf (c :: rest) || containsSeq needle rest

/-- Value of a run of decimal digits, the JS `parseInt` on a digit
match. -/
def digitsVal (ds : List Char) : ℕ :=
  ds.foldl (fun acc c => 10 * acc + (c.toNat - 48)) 0

/-- `extractNoTxZone` (viewer.js lines 838-845): the first run of
digits in the control name, or 0 when there are none. -/
def extractNoTxZone (name : String) : ℕ :=
  let ds := (name.toList.dropWhile (fun c => !c.isDigit)).takeWhile Char.isDigit
  if ds.isEmpty then 0 else digitsVal ds

/-- `extractStartOrEnd` (viewer.js lines 847-849): slot 0 when the name
contains the substring `"start"`, slot 1 otherwise. -/
def extractStartOrEnd (name : String) : ℕ :=
  if containsSeq "start".toList name.toList then 0 else 1

/-- One zone entry of `noTransmitAngles`: the optional `[0]` (start)
and `[1]` (end) slots of the per-zone array. -/
structure NoTxZone where
  startAngle : Option JQ
  endAngle : Option JQ
deriving DecidableEq

/-- The `noTransmitAngles` sparse array; `none` covers both a missing
(`undefined`) element and one that was set to `null` — both are falsy
and both make element assignment throw. -/
def NoTxZones := ℕ → Option NoTxZone

/-- `noTransmitAngles = Array()` (viewer.js line 24). -/
def emptyNoTxZones : NoTxZones := fun _ => none

/-- The `No Transmit` branch of `controlUpdate` (viewer.js lines
817-826).  An enabled update executes
`noTransmitAngles[idx][start_or_end] = value`, which throws a
`TypeError` when `noTransmitAngles[idx]` is `undefined` or `null`; a
disabled update executes `noTransmitAngles[idx] = null`. -/
def controlUpdateNoTransmit (zones : NoTxZones) (name : String) (value : JQ)
    (enabled : Bool) : Except String NoTxZones :=
  let idx := extractNoTxZone name
  let start_or_end := extractStartOrEnd name
  if enabled then
    match zones idx with
    | none => Except.error "TypeError: cannot set properties of undefined"
    | some z =>
      Except.ok (fun j => if j = idx then
        some (if start_or_end = 0 then ⟨some value, z.endAngle⟩
              else ⟨z.startAngle, some value⟩)
      else zones j)
  else
    Except.ok (fun j => if j = idx then none else zones j)

/-- A control-update event for a `No Transmit` control. -/
structure NoTxEvent where
  name : String
  value : JQ
  enabled : Bool

/-- Applying one event to the zone state; a thrown `TypeError`
propagates out of `controlUpdate` and leaves the state unchanged. -/
def applyNoTxUpdate (zones : NoTxZones) (e : NoTxEvent) : NoTxZones :=
  match controlUpdateNoTransmit zones e.name e.value e.enabled with
  | Except.ok z => z
  | Except.error _ => zones

/-- C8: the enabled-update write can never succeed.  Nothing in
viewer.js ever assigns an array to a slot of `noTransmitAngles`, so
every zone entry is forever `undefined`/`null`: an enabled update
always throws a `TypeError` instead of writing the value, and after any
sequence of events every zone entry is still empty.  (The
disabled-update clearing, and the digit/`"start"` extraction, behave as
claimed.) -/
theorem no_transmit_enabled_update_throws :
    (∀ name value,
      controlUpdateNoTransmit emptyNoTxZones name value true =
        Except.error "TypeError: cannot set properties of undefined") ∧
    (∀ events : List NoTxEvent, ∀ j,
      (events.foldl applyNoTxUpdate emptyNoTxZones) j = none) ∧
    extractNoTxZone "No Transmit start angle 1" = 1 ∧
    extractStartOrEnd "No Transmit start angle 1" = 0 ∧
    extractStartOrEnd "No Transmit end angle 1" = 1 ∧
    extractNoTxZone "No Transmit" = 0 := by
  have hstep : ∀ (z : NoTxZones), (∀ j, z j = none) →
      ∀ e j, applyNoTxUpdate z e j = none := by
    intro z hz e j
    unfold applyNoTxUpdate controlUpdateNoTransmit
    cases e.enabled <;> simp [hz]
  refine ⟨fun name value => rfl, ?_, by decide, by decide, by decide, by decide⟩
  intro events
  induction events using List.reverseRecOn with
  | nil => intro j; rfl
  | append_singleton es e ih =>
    intro j
    rw [List.foldl_append]
    exact hstep _ ih e j

/-! ## Background overlay (src/viewer.js lines 851-877) -/

/-- A JavaScript runtime value, as far as `typeof` can distinguish. -/
inductive JSValue where
  | undef : JSValue
  | jsNull : JSValue
  | jsBool : Bool → JSValue
  | jsNum : JQ → JSValue
  | jsStr : String → JSValue
  | jsArr : List JSValue → JSValue
  | jsObj : JSValue
  | jsFun : JSValue

/-- The ECMAScript `typeof` operator.  Arrays are objects: `typeof`
yields `"object"` for them, never `"array"`. -/
def jsTypeof : JSValue → String
  | .undef => "undefined"
  | .jsNull => "object"
  | .jsBool _ => "boolean"
  | .jsNum _ => "number"
  | .jsStr _ => "string"
  | .jsArr _ => "object"
  | .jsObj => "object"
  | .jsFun => "function"

/-- A drawing command issued to the background canvas context. -/
inductive CanvasOp where
  | clearRectOp : CanvasOp
  | arcOp : JQ → JQ → CanvasOp
  | fillTextOp : String → CanvasOp
deriving DecidableEq

/-- The arc command for one zone entry, guarded by `if (e && e[0])`:
the entry must be a truthy value and its first slot a truthy number. -/
def zoneArc (e : JSValue) : Option CanvasOp :=
  match e with
  | .jsArr (.jsNum s :: .jsNum en :: _) => if s.isZero then none else some (.arcOp s en)
  | _ => none

/-- `drawBackground` (viewer.js lines 851-877) as the sequence of
canvas commands it issues: clear, then the no-transmit arcs — but only
under the guard `typeof noTransmitAngles == "array"` — then the title
text. -/
def drawBackground (noTransmitAngles : JSValue) (txt : String) : List CanvasOp :=
  [CanvasOp.clearRectOp] ++
  (if jsTypeof noTransmitAngles == "array" then
    match noTransmitAngles with
    | .jsArr es => es.filterMap zoneArc
    | _ => []
  else []) ++
  [CanvasOp.fillTextOp txt]

/-- C9: `typeof` never returns `"array"`, so the overlay guard is dead:
for every value of the zone array and every title text,
`drawBackground` issues exactly the clear and the title text and never
an arc. -/
theorem no_transmit_overlay_never_drawn (v : JSValue) (txt : String) :
    drawBackground v txt = [CanvasOp.clearRectOp, CanvasOp.fillTextOp txt] ∧
    jsTypeof v ≠ "array" := by
  have h : (jsTypeof v == "array") = false := by
    cases v <;> rfl
  constructor
  · simp [drawBackground, h]
  · intro hEq
    rw [hEq] at h
    simp at h

/-! ## Spoke stream session (src/viewer.js lines 683-728) -/

/-- One decoded radar spoke (the fields consumed by the handler). -/
structure Spoke where
  angle : ℤ
  range : ℤ
  samples : List ℕ
deriving DecidableEq

/-- A decoded schema message; `spokes` is `none` when the message has
no spoke field at all (`message.spokes` undefined). -/
structure RadarMessage where
  spokes : Option (List Spoke)
deriving DecidableEq

/-- Calls the handler makes while dispatching one frame:
`renderer.drawSpoke`, `renderer.setRange`, the control-plane
`setCurrentRange`, and `renderer.render`. -/
inductive RendererCall where
  | drawSpoke : Spoke → RendererCall
  | setRange : ℤ → RendererCall
  | setCurrentRange : ℤ → RendererCall
  | render : RendererCall
deriving DecidableEq

/-- The `for (let i = 0; ...)` dispatch loop (viewer.js lines 705-722)
threading the configured renderer range: draw the spoke; if its range
is positive and differs from the renderer range, call
`renderer.setRange` (which — modelled from the spec: the render surface
is an external collaborator — reconfigures the range); if its range is
positive, call `setCurrentRange` unconditionally. -/
def dispatchSpokes : List Spoke → ℤ → List RendererCall × ℤ
  | [], r => ([], r)
  | spoke :: rest, r =>
    let fire := 0 < spoke.range ∧ spoke.range ≠ r
    let calls1 : List RendererCall :=
      [.drawSpoke spoke] ++
      (if fire then [.setRange spoke.range] else []) ++
      (if 0 < spoke.range then [.setCurrentRange spoke.range] else [])
    let rNext := if fire then spoke.range else r
    let rec2 := dispatchSpokes rest rNext
    (calls1 ++ rec2.1, rec2.2)

/-- What one inbound frame produced. -/
inductive MsgOutcome where
  | emptyFrame : MsgOutcome
  | droppedNoSchema : MsgOutcome
  | decodeError : String → MsgOutcome
  | processed : List RendererCall → MsgOutcome
deriving DecidableEq

/-- The `webSocket.onmessage` handler (viewer.js lines 683-728): a
zero-byte frame is logged and skipped; a frame arriving before the
schema finished loading is logged and dropped; a decode exception is
caught by the surrounding `try`/`catch` and logged; otherwise, if the
decoded message contains a nonempty spoke list, the spokes are
dispatched in order and one `renderer.render()` is issued after all of
them. -/
def webSocketOnMessage (schemaLoaded : Bool)
    (decode : List ℕ → Except String RadarMessage) (data : List ℕ)
    (rendererRange : ℤ) : MsgOutcome × ℤ :=
  if data.length = 0 then (.emptyFrame, rendererRange)
  else if !schemaLoaded then (.droppedNoSchema, rendererRange)
  else
    match decode data with
    | Except.error e => (.decodeError e, rendererRange)
    | Except.ok msg =>
      match msg.spokes with
      | some spokes =>
        if 0 < spokes.length then
          let out := dispatchSpokes spokes rendererRange
          (.processed (out.1 ++ [.render]), out.2)
        else (.processed [], rendererRange)
      | none => (.processed [], rendererRange)

/-- The state of one spoke-stream session. -/
structure SpokeSession where
  socketOpen : Bool
  schemaLoaded : Bool
  rendererRange : ℤ
deriving DecidableEq

/-- Events delivered to the session socket. -/
inductive SocketEvent where
  | message : List ℕ → SocketEvent
  | closeEvt : ℕ → SocketEvent
  | errorEvt : SocketEvent

/-- What one socket event led to. -/
inductive StepResult where
  | handled : MsgOutcome → StepResult
  | scheduledRestart : ℕ → StepResult
  | loggedError : StepResult
deriving DecidableEq

/-- One step of the session: `onmessage` handles a frame (exceptions
caught inside), `onclose` closes the socket and schedules `loadRadar`
after 15000 ms (viewer.js lines 624-626 and 674-677), `onerror` only
logs. -/
def sessionStep (decode : List ℕ → Except String RadarMessage)
    (st : SpokeSession) : SocketEvent → SpokeSession × StepResult
  | .message data =>
    let out := webSocketOnMessage st.schemaLoaded decode data st.rendererRange
    ({ st with rendererRange := out.2 }, .handled out.1)
  | .closeEvt _ => ({ st with socketOpen := false }, .scheduledRestart 15000)
  | .errorEvt => (st, .loggedError)

/-- Projection of a trace onto the spokes drawn. -/
def drawnSpoke : RendererCall → Option Spoke
  | .drawSpoke s => some s
  | _ => none

/-- Projection of a trace onto `renderer.setRange` arguments. -/
def setRangeArg : RendererCall → Option ℤ
  | .setRange r => some r
  | _ => none

/-- Projection of a trace onto `setCurrentRange` arguments. -/
def setCurrentRangeArg : RendererCall → Option ℤ
  | .setCurrentRange r => some r
  | _ => none

/-- The claim-side description of the `setRange` calls: starting from
the currently configured range, a positive spoke range produces a call
exactly when it differs from the configured range, which it then
becomes. -/
def newRangeSequence (r : ℤ) : List ℤ → List ℤ
  | [] => []
  | x :: xs => if x = r then newRangeSequence r xs else x :: newRangeSequence x xs

lemma dispatchSpokes_draws (spokes : List Spoke) (r : ℤ) :
    (dispatchSpokes spokes r).1.filterMap drawnSpoke = spokes := by
  induction spokes generalizing r with
  | nil => rfl
  | cons s rest ih =>
    simp only [dispatchSpokes, List.filterMap_append]
    by_cases h1 : 0 < s.range <;> by_cases h2 : s.range = r <;>
      simp [h1, h2, drawnSpoke, ih]

lemma dispatchSpokes_currentRanges (spokes : List Spoke) (r : ℤ) :
    (dispatchSpokes spokes r).1.filterMap setCurrentRangeArg =
      (spokes.filter (fun s => 0 < s.range)).map Spoke.range := by
  induction spokes generalizing r with
  | nil => rfl
  | cons s rest ih =>
    simp only [dispatchSpokes, List.filterMap_append]
    by_cases h2 : s.range = r
    · subst h2
      by_cases h1 : 0 < s.range <;>
        simp [h1, setCurrentRangeArg, ih, List.filter_cons]
    · by_cases h1 : 0 < s.range <;>
        simp [h1, h2, setCurrentRangeArg, ih, List.filter_cons]

lemma dispatchSpokes_setRanges (spokes : List Spoke) (r : ℤ) :
    (dispatchSpokes spokes r).1.filterMap setRangeArg =
      newRangeSequence r ((spokes.filter (fun s => 0 < s.range)).map Spoke.range) := by
  induction spokes generalizing r with
  | nil => rfl
  | cons s rest ih =>
    simp only [dispatchSpokes, List.filterMap_append]
    by_cases h2 : s.range = r
    · subst h2
      by_cases h1 : 0 < s.range <;>
        simp [h1, setRangeArg, ih, newRangeSequence, List.filter_cons]
    · by_cases h1 : 0 < s.range <;>
        simp [h1, h2, setRangeArg, ih, newRangeSequence, List.filter_cons]

lemma dispatchSpokes_no_render (spokes : List Spoke) (r : ℤ) :
    RendererCall.render ∉ (dispatchSpokes spokes r).1 := by
  induction spokes generalizing r with
  | nil => simp [dispatchSpokes]
  | cons s rest ih =>
    simp only [dispatchSpokes, List.mem_append]
    by_cases h1 : 0 < s.range <;> by_cases h2 : s.range = r <;>
      simp [h1, h2, ih]

/-- C1: for every inbound frame whose decoded message contains a
nonempty spoke list, the handler produces exactly the dispatch trace of
`dispatchSpokes` followed by one final `renderer.render()`; within that
trace the drawn spokes are exactly the spokes of the frame in order, a
`setCurrentRange` call occurs for every spoke with positive range, the
`setRange` calls are exactly the positive ranges that differ from the
currently configured renderer range at that point, and `render` occurs
exactly once, last. -/
theorem spoke_dispatch_per_frame
    (decode : List ℕ → Except String RadarMessage) (data : List ℕ)
    (msg : RadarMessage) (spokes : List Spoke) (r : ℤ)
    (hdata : data ≠ []) (hdec : decode data = Except.ok msg)
    (hsp : msg.spokes = some spokes) (hne : spokes ≠ []) :
    webSocketOnMessage true decode data r =
      (MsgOutcome.processed ((dispatchSpokes spokes r).1 ++ [RendererCall.render]),
        (dispatchSpokes spokes r).2) ∧
    (dispatchSpokes spokes r).1.filterMap drawnSpoke = spokes ∧
    (dispatchSpokes spokes r).1.filterMap setCurrentRangeArg =
      (spokes.filter (fun s => 0 < s.range)).map Spoke.range ∧
    (dispatchSpokes spokes r).1.filterMap setRangeArg =
      newRangeSequence r ((spokes.filter (fun s => 0 < s.range)).map Spoke.range) ∧
    ((dispatchSpokes spokes r).1 ++ [RendererCall.render]).count
      RendererCall.render = 1 ∧
    ((dispatchSpokes spokes r).1 ++ [RendererCall.render]).getLast? =
      some RendererCall.render := by
  refine ⟨?_, dispatchSpokes_draws spokes r, dispatchSpokes_currentRanges spokes r,
    dispatchSpokes_setRanges spokes r, ?_, ?_⟩
  · have hlen : ¬(data.length = 0) := by simpa using hdata
    have hpos : 0 < spokes.length := List.length_pos.mpr hne
    simp [webSocketOnMessage, hlen, hdec, hsp, hpos]
  · rw [List.count_append]
    rw [List.count_eq_zero.mpr (dispatchSpokes_no_render spokes r)]
    rfl
  · exact List.getLast?_concat _

/-- C1 witness: a three-spoke frame starting from configured range 50:
ranges 100, 0, 100 produce one `setRange` (100 differs from 50, then 0
is skipped, then 100 equals the configured range), two
`setCurrentRange` calls, and one trailing `render`. -/
theorem spoke_dispatch_per_frame_witness :
    webSocketOnMessage true
      (fun _ => Except.ok ⟨some [⟨0, 100, [3]⟩, ⟨1, 0, []⟩, ⟨2, 100, [7]⟩]⟩)
      [1] 50 =
      (MsgOutcome.processed
        [RendererCall.drawSpoke ⟨0, 100, [3]⟩, RendererCall.setRange 100,
          RendererCall.setCurrentRange 100, RendererCall.drawSpoke ⟨1, 0, []⟩,
          RendererCall.drawSpoke ⟨2, 100, [7]⟩, RendererCall.setCurrentRange 100,
          RendererCall.render], 100) := by
  have h := spoke_dispatch_per_frame
    (fun _ => Except.ok ⟨some [⟨0, 100, [3]⟩, ⟨1, 0, []⟩, ⟨2, 100, [7]⟩]⟩)
    [1] ⟨some [⟨0, 100, [3]⟩, ⟨1, 0, []⟩, ⟨2, 100, [7]⟩]⟩
    [⟨0, 100, [3]⟩, ⟨1, 0, []⟩, ⟨2, 100, [7]⟩] 50
    (by decide) rfl rfl (by decide)
  rw [h.1]
  decide

/-- C3: no inbound frame terminates the stream session.  Handling a
message event never changes `socketOpen`; a zero-byte frame is a no-op
(`emptyFrame`), a frame arriving before the schema loaded is dropped
without being queued anywhere, and a decode exception is caught,
leaving the session state unchanged and the session awaiting further
events. -/
theorem frame_faults_never_kill_session
    (decode : List ℕ → Except String RadarMessage) (st : SpokeSession)
    (data : List ℕ) :
    (sessionStep decode st (.message data)).1.socketOpen = st.socketOpen ∧
    (data = [] →
      sessionStep decode st (.message data) =
        (st, StepResult.handled MsgOutcome.emptyFrame)) ∧
    (data ≠ [] → st.schemaLoaded = false →
      sessionStep decode st (.message data) =
        (st, StepResult.handled MsgOutcome.droppedNoSchema)) ∧
    (∀ e, data ≠ [] → st.schemaLoaded = true → decode data = Except.error e →
      sessionStep decode st (.message data) =
        (st, StepResult.handled (MsgOutcome.decodeError e))) := by
  obtain ⟨so, sl, rr⟩ := st
  refine ⟨rfl, ?_, ?_, ?_⟩
  · intro h
    subst h
    simp [sessionStep, webSocketOnMessage]
  · intro hne hsch
    have hlen : ¬(data.length = 0) := by simpa using hne
    subst hsch
    simp [sessionStep, webSocketOnMessage, hlen]
  · intro e hne hsch hdec
    have hlen : ¬(data.length = 0) := by simpa using hne
    subst hsch
    simp [sessionStep, webSocketOnMessage, hlen, hdec]

/-- C3 witness: a decode failure on a concrete one-byte frame is caught
(`decodeError`) with the session state unchanged, and a zero-byte frame
is skipped, in a session whose socket stays open. -/
theorem frame_faults_never_kill_session_witness :
    sessionStep (fun _ => Except.error "bad wire data") ⟨true, true, 0⟩
      (.message [7]) =
      (⟨true, true, 0⟩, StepResult.handled (MsgOutcome.decodeError "bad wire data")) ∧
    sessionStep (fun _ => Except.error "bad wire data") ⟨true, true, 0⟩
      (.message []) =
      (⟨true, true, 0⟩, StepResult.handled MsgOutcome.emptyFrame) := by
  constructor
  · exact (frame_faults_never_kill_session (fun _ => Except.error "bad wire data")
      ⟨true, true, 0⟩ [7]).2.2.2 "bad wire data" (by decide) rfl rfl
  · exact (frame_faults_never_kill_session (fun _ => Except.error "bad wire data")
      ⟨true, true, 0⟩ []).2.1 rfl

/-! ## Readiness gate (src/viewer.js lines 136-200, 629-645) -/

/-- The radar-session descriptor delivered by the control plane. -/
structure RadarSessionDescriptor where
  id : String
  maxSpokeLen : ℤ
  spokesPerRevolution : ℤ
  pixelValues : JQ
  brand : String
  streamUrl : Option String
  controls : Option Unit
deriving DecidableEq

/-- The viewer-global state the gate manipulates: the
`pendingRadarData` buffer (viewer.js line 629), the render-surface
`ready` flag (modelled from the spec: `renderer.ready` is owned by the
external render surface and becomes true when `renderer.initPromise`
resolves), plus observation lists recording which descriptors reached
session construction and which explicit `loadRadar` calls were made. -/
structure ViewerState where
  pendingRadarData : Option RadarSessionDescriptor
  rendererReady : Bool
  sessionsStarted : List RadarSessionDescriptor
  loadRadarCalls : List (Option String)
deriving DecidableEq

/-- The entry guard of `radarLoaded` (viewer.js lines 631-645): a
descriptor without `controls` is ignored; before the renderer is ready
the descriptor is stored in `pendingRadarData` (overwriting any
previous one) and nothing else happens; once ready, the session is
constructed from the descriptor. -/
def radarLoaded (r : RadarSessionDescriptor) (st : ViewerState) : ViewerState :=
  if r.controls.isNone then st
  else if !st.rendererReady then { st with pendingRadarData := some r }
  else { st with sessionsStarted := st.sessionsStarted ++ [r] }

/-- The drain at the end of `window.onload` (viewer.js lines 176-183):
if a descriptor is pending, feed it to `radarLoaded` and clear the
buffer; otherwise call `loadRadar(id)` with the caller-supplied id. -/
def drainPendingRadarData (id : Option String) (st : ViewerState) : ViewerState :=
  match st.pendingRadarData with
  | some r => { radarLoaded r st with pendingRadarData := none }
  | none => { st with loadRadarCalls := st.loadRadarCalls ++ [id] }

/-- The barrier `await Promise.all([renderer.initPromise, ...])`
(viewer.js line 168) after which the render surface is ready. -/
def rendererBecomesReady (st : ViewerState) : ViewerState :=
  { st with rendererReady := true }

/-- State at page load (viewer.js lines 136, 629). -/
def initialViewerState : ViewerState := ⟨none, false, [], []⟩

lemma radarLoaded_not_ready (r : RadarSessionDescriptor) (st : ViewerState) :
    (radarLoaded r st).rendererReady = st.rendererReady := by
  unfold radarLoaded
  split_ifs <;> rfl

lemma radarLoaded_skip (e : RadarSessionDescriptor) (st : ViewerState)
    (hc : e.controls.isNone = true) : radarLoaded e st = st := by
  unfold radarLoaded
  rw [hc]
  rfl

lemma radarLoaded_store (e : RadarSessionDescriptor) (st : ViewerState)
    (hc : e.controls.isNone = false) (h : st.rendererReady = false) :
    radarLoaded e st = { st with pendingRadarData := some e } := by
  unfold radarLoaded
  rw [hc, h]
  rfl

/-- Arrivals before readiness only overwrite the buffer: the pending
slot after a run of arrivals is the last descriptor carrying controls,
and nothing is started or loaded. -/
lemma radarLoaded_foldl_pending (rs : List RadarSessionDescriptor)
    (st : ViewerState) (h : st.rendererReady = false) :
    (rs.foldl (fun acc r => radarLoaded r acc) st).pendingRadarData =
      ((rs.filter (fun r => r.controls.isSome)).getLast?).or st.pendingRadarData ∧
    (rs.foldl (fun acc r => radarLoaded r acc) st).sessionsStarted =
      st.sessionsStarted ∧
    (rs.foldl (fun acc r => radarLoaded r acc) st).loadRadarCalls =
      st.loadRadarCalls ∧
    (rs.foldl (fun acc r => radarLoaded r acc) st).rendererReady = false := by
  induction rs using List.reverseRecOn with
  | nil => simp [h]
  | append_singleton es e ih =>
    rcases ih with ⟨h1, h2, h3, h4⟩
    rw [List.foldl_append, List.filter_append]
    simp only [List.foldl_cons, List.foldl_nil, List.filter_cons, List.filter_nil]
    by_cases hc : e.controls.isSome
    · have hc0 : e.controls.isNone = false := by cases hx : e.controls <;> simp_all
      rw [radarLoaded_store e _ hc0 h4]
      refine ⟨?_, h2, h3, h4⟩
      simp only [hc, if_pos, List.getLast?_concat]
      rfl
    · have hc0 : e.controls.isNone = true := by cases hx : e.controls <;> simp_all
      rw [radarLoaded_skip e _ hc0]
      simp only [hc, Bool.false_eq_true, if_false, List.append_nil]
      exact ⟨h1, h2, h3, h4⟩

/-- C2: the pending-session buffer is a single slot.  If two
descriptors (both carrying controls) arrive before the render surface
is ready, only the second survives the drain: it alone reaches session
construction and the buffer is reset to empty.  If none arrived, the
drain issues exactly one explicit `loadRadar` call keyed by the
caller-supplied id.  In general, after any run of early arrivals the
buffer holds exactly the last descriptor carrying controls. -/
theorem pending_session_buffer :
    (∀ (r1 r2 : RadarSessionDescriptor) (id : Option String),
      r1.controls.isSome = true → r2.controls.isSome = true →
      drainPendingRadarData id (rendererBecomesReady
        (radarLoaded r2 (radarLoaded r1 initialViewerState))) =
        ⟨none, true, [r2], []⟩) ∧
    (∀ id : Option String,
      drainPendingRadarData id (rendererBecomesReady initialViewerState) =
        ⟨none, true, [], [id]⟩) ∧
    (∀ rs : List RadarSessionDescriptor,
      (rs.foldl (fun acc r => radarLoaded r acc)
        initialViewerState).pendingRadarData =
        (rs.filter (fun r => r.controls.isSome)).getLast?) := by
  refine ⟨?_, ?_, ?_⟩
  · intro r1 r2 id h1 h2
    have hc1 : r1.controls.isNone = false := by cases hx : r1.controls <;> simp_all
    have hc2 : r2.controls.isNone = false := by cases hx : r2.controls <;> simp_all
    rw [show radarLoaded r1 initialViewerState = ⟨some r1, false, [], []⟩ from by
      rw [radarLoaded_store r1 _ hc1 rfl]
      rfl]
    rw [show radarLoaded r2 (⟨some r1, false, [], []⟩ : ViewerState) =
        ⟨some r2, false, [], []⟩ from by
      rw [radarLoaded_store r2 _ hc2 rfl]]
    simp [drainPendingRadarData, rendererBecomesReady, radarLoaded, hc2]
  · intro id
    simp [drainPendingRadarData, rendererBecomesReady, initialViewerState]
  · intro rs
    have h := (radarLoaded_foldl_pending rs initialViewerState rfl).1
    simpa [initialViewerState] using h

/-- C2 witness: two concrete descriptors arriving early, and the
empty-buffer drain, both instantiating the buffer theorem. -/
theorem pending_session_buffer_witness :
    drainPendingRadarData (some "radar-0") (rendererBecomesReady
      (radarLoaded ⟨"r2", 512, 4096, 16, "Navico", some "ws", some ()⟩
        (radarLoaded ⟨"r1", 1024, 2048, 16, "Furuno", none, some ()⟩
          initialViewerState))) =
      ⟨none, true, [⟨"r2", 512, 4096, 16, "Navico", some "ws", some ()⟩], []⟩ ∧
    drainPendingRadarData (some "radar-0") (rendererBecomesReady
      initialViewerState) = ⟨none, true, [], [some "radar-0"]⟩ := by
  have h := pending_session_buffer
  exact ⟨h.1 ⟨"r1", 1024, 2048, 16, "Furuno", none, some ()⟩
      ⟨"r2", 512, 4096, 16, "Navico", some "ws", some ()⟩ (some "radar-0")
      (by decide) (by decide),
    h.2.1 (some "radar-0")⟩

/-- C4 witness: the Navico equivalence evaluated at 2778 m (1.5 nm). -/
theorem navico_format_matches_claim_witness :
    formatRangeValue "Navico" 2778 = formatRangeNavicoClaim 2778 ∧
    formatRangeNavicoClaim 2778 = "1.5 nm" :=
  ⟨navico_format_matches_claim 2778, by decide⟩

/-- C9 witness: even a populated zone array draws no arc. -/
theorem no_transmit_overlay_never_drawn_witness :
    drawBackground
      (JSValue.jsArr [JSValue.jsArr [JSValue.jsNum 100, JSValue.jsNum 200]])
      "Radar 1" =
      [CanvasOp.clearRectOp, CanvasOp.fillTextOp "Radar 1"] :=
  (no_transmit_overlay_never_drawn _ _).1
